import Mathlib

/-!
Shallow embedding of `src/research_agent_app.py` (Deep Research Librarian
agent).  The two external services (DuckDuckGo search provider, Gemini
completion service) are modelled as oracles supplied in a `World` record;
Python exceptions raised by a service call are the `.error` case of
`Except Unit`.  Observable behaviour of `conduct_research` is a trace of
outbound events (completion calls, search calls, sleeps) together with
either a `ResearchResult` (normal return) or `.error ()` (an uncaught
Python exception escaping `conduct_research`).
-/

namespace ResearchAgent

/-- One normalized search hit, mirroring the dict
`{'title': ..., 'url': ..., 'snippet': ...}` built by `search_web`. -/
structure Source where
  title : String
  url : String
  snippet : String
deriving DecidableEq, Repr

/-- One entry of the provider's `RelatedTopics` array.  `isDict` models
`isinstance(topic, dict)`; `text` and `firstURL` model the optional
`Text` and `FirstURL` keys (absent = `none`). -/
structure RawTopic where
  isDict : Bool
  text : Option String
  firstURL : Option String
deriving DecidableEq, Repr

/-- The JSON body returned by the search provider, as consumed by
`search_web`: only the optional `RelatedTopics` list is read. -/
structure SearchData where
  relatedTopics : Option (List RawTopic)
deriving DecidableEq, Repr

/-- JSON values, as produced by `json.loads` on a completion response. -/
inductive Json where
  | null : Json
  | bool (b : Bool) : Json
  | num (n : Int) : Json
  | str (s : String) : Json
  | arr (xs : List Json) : Json
  | obj (fields : List (String × Json)) : Json
deriving Repr

/-- `ResearchConfig` dataclass.  `search_delay` (a Python float) is
modelled as a rational number. -/
structure ResearchConfig where
  gemini_api_key : String
  max_sources : Nat := 10
  search_delay : Rat := 1
deriving DecidableEq, Repr

/-- The dict returned by `conduct_research`. -/
structure ResearchResult where
  query : String
  sources_found : Nat
  report : String
  sources : List Source
deriving DecidableEq, Repr

/-- Behaviour of the external services during one run: the completion
response for the query-expansion prompt, the search-provider response per
query string, the Stage-A completion response (already composed with
`json.loads`: `.error` covers both a failed call and a body that is not
valid JSON, the two cases the bare `except` merges), and the Stage-B
completion response text. -/
structure World where
  expandResp : Except Unit String
  searchResp : String → Except Unit SearchData
  analysisResp : Except Unit Json
  reportResp : Except Unit String

/-- Outbound effects of a run, in program order. -/
inductive Event where
  | expandCall (prompt : String) : Event
  | searchCall (query : String) (limit : Nat) : Event
  | sleep (seconds : Rat) : Event
  | analysisCall (prompt : String) : Event
  | reportCall (prompt : String) : Event
deriving DecidableEq, Repr

/-- Python string slicing `s[:n]` (by code point). -/
def pySlice (s : String) (n : Nat) : String :=
  ⟨s.data.take n⟩

/-- Python `sep.join(xs)`. -/
def pyJoin (sep : String) : List String → String
  | [] => ""
  | [x] => x
  | x :: y :: xs => x ++ sep ++ pyJoin sep (y :: xs)

/-- First-match association lookup (`d[k]` / `d.get(k)` on a Python dict
represented as an insertion-ordered list of key-value pairs). -/
def alookup {β : Type} (d : List (String × β)) (k : String) : Option β :=
  match d with
  | [] => none
  | p :: rest => if p.1 = k then some p.2 else alookup rest k

/-- Python dict assignment `d[k] = v`: overwrite in place when the key is
present (keeping its position), append otherwise. -/
def dictInsert (d : List (String × Source)) (k : String) (v : Source) :
    List (String × Source) :=
  if d.any (fun p => p.1 == k) then
    d.map (fun p => if p.1 = k then (k, v) else p)
  else d ++ [(k, v)]

/-- The filter `if source['url']` inside the dedup comprehension: keep
records whose url is non-empty (Python string truthiness). -/
def sourceFilter (ss : List Source) : List Source :=
  ss.filter (fun s => s.url != "")

/-- Line 66: `list({source['url']: source for source in all_sources if
source['url']}.values())` — build an insertion-ordered dict keyed by url
(last assignment wins, key keeps first-insertion position) and take its
values. -/
def dedupSources (ss : List Source) : List Source :=
  ((sourceFilter ss).foldl (fun d s => dictInsert d s.url s) []).map Prod.snd

/-- Modelled from the spec: the distinct urls in first-occurrence order. -/
def firstOccs (us : List String) : List String :=
  us.foldl (fun acc u => if u ∈ acc then acc else acc ++ [u]) []

/-- Modelled from the spec: the last record in `ss` carrying url `u`. -/
def lastWith (ss : List Source) (u : String) : Option Source :=
  (ss.filter (fun s => s.url == u)).getLast?

/-- Modelled from the spec (§4.3 step 3): one record per distinct
non-empty url, ordered by the url's first occurrence, with field values
taken from the url's last occurrence in the accumulated list. -/
def dedupSpec (ss : List Source) : List Source :=
  (firstOccs ((sourceFilter ss).map Source.url)).filterMap (lastWith ss)

/-- Left-biased choice on options (used to phrase "last occurrence wins"
invariants about the dict fold). -/
def oOr {α : Type} (a b : Option α) : Option α :=
  match a with
  | some x => some x
  | none => b

/-- The dict-building fold of line 66, with an explicit starting dict. -/
def dictFold (d : List (String × Source)) (ss : List Source) :
    List (String × Source) :=
  ss.foldl (fun d s => dictInsert d s.url s) d

/-- `search_web` (lines 26-43): on any exception return `[]`; otherwise
take the first `num_results` entries of `RelatedTopics` (if present) and
keep those that are dicts containing `Text`, normalizing each into a
`Source` with `title` and `snippet` both `topic.get('Text', '')` and
`url = topic.get('FirstURL', '')`. -/
def search_web (resp : Except Unit SearchData) (num_results : Nat) :
    List Source :=
  match resp with
  | .error _ => []
  | .ok data =>
    match data.relatedTopics with
    | none => []
    | some topics =>
      (topics.take num_results).filterMap fun topic =>
        if topic.isDict && topic.text.isSome then
          some { title := topic.text.getD ""
                 url := topic.firstURL.getD ""
                 snippet := topic.text.getD "" }
        else none

/-- Line 47: `{"basic": 1, "standard": 2, "deep": 3}.get(depth, 2)`. -/
def search_rounds (depth : String) : Nat :=
  (alookup [("basic", 1), ("standard", 2), ("deep", 3)] depth).getD 2

/-- Line 48: `{"basic": 3, "standard": 5, "deep": 7}.get(depth, 5)`. -/
def sources_per_round (depth : String) : Nat :=
  (alookup [("basic", 3), ("standard", 5), ("deep", 7)] depth).getD 5

/-- Line 53: the query-expansion prompt. -/
def relatedPrompt (query : String) : String :=
  "Generate 2 related search queries for: " ++ query ++ ". One line each."

/-- Lines 51-58: for standard/deep depth, ask the completion service for
related queries and keep the first 2 non-empty trimmed lines; on call
failure, or for any other depth, contribute nothing. -/
def expandQueries (w : World) (depth : String) : List String :=
  if depth = "standard" ∨ depth = "deep" then
    match w.expandResp with
    | .ok text =>
      (((text.splitOn "\n").map String.trim).filter (fun q => q != "")).take 2
    | .error _ => []
  else []

/-- Line 60: the queries actually executed, `search_queries[:search_rounds]`
where `search_queries = [query] + additional_queries`. -/
def roundQueries (w : World) (query depth : String) : List String :=
  (query :: expandQueries w depth).take (search_rounds depth)

/-- Line 69: the Stage-A analysis prompt; the content section is the
snippets joined with single spaces, then sliced to 4000 characters. -/
def mkAnalysisPrompt (query : String) (uniq : List Source) : String :=
  "Analyze the following research content on '" ++ query ++
  "'. Provide 3-4 key themes and 3-4 main insights. Format as JSON with keys: themes, insights.\n\nContent: " ++
  pySlice (pyJoin " " (uniq.map Source.snippet)) 4000

/-- Line 74: the fixed fallback analysis dict. -/
def defaultAnalysis : Json :=
  Json.obj [("themes", Json.arr [Json.str "Information synthesis"]),
            ("insights", Json.arr [Json.str "Comprehensive analysis"])]

/-- Lines 70-74: the value bound to `analysis` — the parsed JSON of the
Stage-A response, or the fixed default when the call or the parse fails. -/
def analysisValue (w : World) : Json :=
  match w.analysisResp with
  | .ok j => j
  | .error _ => defaultAnalysis

/-- Python subscript `j[k]` with a string key: a value for a dict that has
the key, `none` (an uncaught `KeyError`/`TypeError`) otherwise. -/
def Json.getItem : Json → String → Option Json
  | .obj fields, k => alookup fields k
  | _, _ => none

/-- Python `repr` of a JSON value (as used by `str` on lists/dicts). -/
def pyReprJson : Json → String
  | .null => "None"
  | .bool b => if b then "True" else "False"
  | .num n => toString n
  | .str s => "'" ++ s ++ "'"
  | .arr xs => "[" ++ pyJoin ", " (xs.attach.map fun x => pyReprJson x.1) ++ "]"
  | .obj fs =>
    "\x7b" ++
    pyJoin ", " (fs.attach.map fun p => "'" ++ p.1.1 ++ "': " ++ pyReprJson p.1.2) ++
    "\x7d"
decreasing_by
  · have h := List.sizeOf_lt_of_mem x.2
    simp only [Json.arr.sizeOf_spec]
    omega
  · obtain ⟨⟨a, b⟩, hp⟩ := p
    have h := List.sizeOf_lt_of_mem hp
    simp only [Json.obj.sizeOf_spec, Prod.mk.sizeOf_spec] at h ⊢
    omega

/-- Python `str` of a JSON value, as interpolated by an f-string. -/
def pyStr (j : Json) : String :=
  match j with
  | .str s => s
  | _ => pyReprJson j

/-- Line 77: the Stage-B report prompt, embedding the first 5 sources
(title, first 200 snippet characters) and the Stage-A themes/insights. -/
def mkReportPrompt (query : String) (uniq : List Source)
    (themes insights : Json) : String :=
  "Create a comprehensive research report on '" ++ query ++
  "' based on the following sources and analysis:\n\nSources:\n" ++
  pyJoin "\n" ((uniq.take 5).map fun s =>
    "- " ++ s.title ++ ": " ++ pySlice s.snippet 200) ++
  "\n\nAnalysis:\nThemes: " ++ pyStr themes ++
  "\nInsights: " ++ pyStr insights ++
  "\n\nStructure the report with an Executive Summary, Key Findings, Detailed Analysis, and Conclusions."

/-- Line 83: the synthetic fallback report used when the Stage-B call fails. -/
def fallbackReport (query : String) (n : Nat) : String :=
  "# Research Report: " ++ query ++
  "\n\n## Executive Summary\n\nNo report generated due to API error. A comprehensive analysis was attempted on " ++
  toString n ++ " sources."

/-- Lines 79-83: the report text — the Stage-B response, or the synthetic
fallback on call failure. -/
def reportTextOf (w : World) (query : String) (uniq : List Source) : String :=
  match w.reportResp with
  | .ok t => t
  | .error _ => fallbackReport query uniq.length

/-- Lines 60-64: the accumulator `all_sources` after the search loop (the
round over `search_queries[:search_rounds]`, each round contributing
`search_web(search_query, sources_per_round)`). -/
def allSources (w : World) (query depth : String) : List Source :=
  ((roundQueries w query depth).map fun sq =>
    search_web (w.searchResp sq) (sources_per_round depth)).flatten

/-- Line 66: `unique_sources` for a run. -/
def uniqueSources (w : World) (query depth : String) : List Source :=
  dedupSources (allSources w query depth)

/-- The expansion call issued on lines 51-54 (only for standard/deep). -/
def expandEvents (query depth : String) : List Event :=
  if depth = "standard" ∨ depth = "deep" then
    [.expandCall (relatedPrompt query)]
  else []

/-- The per-round search calls and sleeps of lines 60-64. -/
def roundEvents (cfg : ResearchConfig) (w : World) (query depth : String) :
    List Event :=
  ((roundQueries w query depth).map fun sq =>
    [Event.searchCall sq (sources_per_round depth),
     Event.sleep cfg.search_delay]).flatten

/-- The synthesis-stage completion calls (lines 69-83): Stage A always
runs; the Stage-B call happens only if the subscripts on line 77 found
both keys. -/
def synthEvents (w : World) (query : String) (uniq : List Source) :
    List Event :=
  Event.analysisCall (mkAnalysisPrompt query uniq) ::
  (match (analysisValue w).getItem "themes",
         (analysisValue w).getItem "insights" with
   | some themes, some insights =>
     [Event.reportCall (mkReportPrompt query uniq themes insights)]
   | _, _ => [])

/-- `DeepResearchSystem.conduct_research` (lines 45-90).  Returns the event
trace and either the result dict or `.error ()` when an uncaught exception
escapes (the subscripts `analysis['themes']` / `analysis['insights']` on
line 77 are evaluated outside any `try`). -/
def conduct_research (cfg : ResearchConfig) (w : World)
    (query : String) (depth : String) :
    List Event × Except Unit ResearchResult :=
  let unique_sources := uniqueSources w query depth
  match (analysisValue w).getItem "themes", (analysisValue w).getItem "insights" with
  | some themes, some insights =>
    (expandEvents query depth ++ roundEvents cfg w query depth ++
       [Event.analysisCall (mkAnalysisPrompt query unique_sources),
        Event.reportCall (mkReportPrompt query unique_sources themes insights)],
     .ok { query := query
           sources_found := unique_sources.length
           report := reportTextOf w query unique_sources
           sources := unique_sources })
  | _, _ =>
    (expandEvents query depth ++ roundEvents cfg w query depth ++
       [Event.analysisCall (mkAnalysisPrompt query unique_sources)],
     .error ())

/-- The event trace of a run. -/
def runTrace (cfg : ResearchConfig) (w : World) (query depth : String) :
    List Event :=
  (conduct_research cfg w query depth).1

/-- The search calls (query, limit) issued during a trace. -/
def searchCalls (tr : List Event) : List (String × Nat) :=
  tr.filterMap fun e =>
    match e with
    | .searchCall q n => some (q, n)
    | _ => none

/-- How many query-expansion completion calls a trace contains. -/
def expandCallCount (tr : List Event) : Nat :=
  (tr.filter fun e =>
    match e with
    | .expandCall _ => true
    | _ => false).length

/-- How many Stage-B report completion calls a trace contains. -/
def reportCallCount (tr : List Event) : Nat :=
  (tr.filter fun e =>
    match e with
    | .reportCall _ => true
    | _ => false).length

/-- Test fixture: a world in which every external call fails. -/
def errWorld : World :=
  { expandResp := .error ()
    searchResp := fun _ => .error ()
    analysisResp := .error ()
    reportResp := .error () }

/-- Test fixture: the Stage-A completion succeeds but its text parses as
a JSON string — valid JSON, yet not an object. -/
def strAnalysisWorld : World :=
  { expandResp := .error ()
    searchResp := fun _ => .error ()
    analysisResp := .ok (Json.str "model refused to emit JSON")
    reportResp := .ok "report text" }

/-- Test fixture: the Stage-A completion succeeds but its text parses as
the empty JSON array — valid JSON, yet not an object with the two keys. -/
def arrAnalysisWorld : World :=
  { expandResp := .error ()
    searchResp := fun _ => .error ()
    analysisResp := .ok (Json.arr [])
    reportResp := .ok "report text" }

/-- Test fixture: a 3000-character snippet, long enough that joining two
of them crosses the 4000-character cap. -/
def bigSnippet : String :=
  ⟨List.replicate 3000 'a'⟩

/-! ### Deduplication: the dict fold of line 66 realises the spec's rule -/

theorem oOr_none_right {α : Type} (a : Option α) : oOr a none = a := by
  cases a <;> rfl

theorem oOr_assoc {α : Type} (a b c : Option α) :
    oOr (oOr a b) c = oOr a (oOr b c) := by
  cases a <;> rfl

theorem getLast?_eq_oOr (a : Source) (l : List Source) :
    (a :: l).getLast? = oOr l.getLast? (some a) := by
  induction l generalizing a with
  | nil => rfl
  | cons b bs ih =>
    rw [List.getLast?_cons_cons]
    cases h : (b :: bs).getLast? with
    | some x => rfl
    | none =>
      rw [ih b] at h
      cases hbs : bs.getLast? <;> simp [oOr, hbs] at h

theorem alookup_append_single {β : Type} (d : List (String × β))
    (k u : String) (v : β) :
    alookup (d ++ [(k, v)]) u =
      oOr (alookup d u) (if k = u then some v else none) := by
  induction d with
  | nil => rfl
  | cons p rest ih =>
    by_cases h : p.1 = u <;> simp [alookup, h, ih, oOr]

theorem alookup_map_replace (d : List (String × Source)) (k u : String)
    (v : Source) :
    alookup (d.map fun p => if p.1 = k then (k, v) else p) u =
      if u = k then (if d.any (fun p => p.1 == k) then some v else none)
      else alookup d u := by
  induction d with
  | nil => by_cases h : u = k <;> simp [alookup, h]
  | cons p rest ih =>
    by_cases hp : p.1 = k
    · by_cases hu : u = k
      · subst hu
        simp [alookup, hp, List.any_cons]
      · have hpu : ¬p.1 = u := by rw [hp]; exact fun h => hu h.symm
        simp [alookup, hp, hu, hpu, Ne.symm hu, ih]
    · by_cases hq : p.1 = u
      · have hu : ¬u = k := fun h => hp (hq.trans h)
        simp [alookup, hp, hq, hu]
      · have hb : (p.1 == k) = false := by simpa using hp
        simp [alookup, hp, hq, ih, List.any_cons]
        rw [hb, Bool.false_or]

theorem alookup_none_of_not_any (d : List (String × Source)) (k : String)
    (h : d.any (fun p => p.1 == k) = false) : alookup d k = none := by
  induction d with
  | nil => rfl
  | cons p rest ih =>
    rw [List.any_cons, Bool.or_eq_false_iff] at h
    have h1 : ¬p.1 = k := by simpa using h.1
    simp [alookup, h1, ih h.2]

theorem alookup_dictInsert (d : List (String × Source)) (k u : String)
    (v : Source) :
    alookup (dictInsert d k v) u = if u = k then some v else alookup d u := by
  unfold dictInsert
  by_cases h : d.any (fun p => p.1 == k) = true
  · rw [if_pos h, alookup_map_replace]
    by_cases hu : u = k <;> simp [hu, h]
  · have hf : d.any (fun p => p.1 == k) = false := by
      cases hb : d.any (fun p => p.1 == k)
      · rfl
      · exact absurd hb h
    rw [if_neg h, alookup_append_single]
    have h0 := alookup_none_of_not_any d k hf
    by_cases hu : u = k
    · subst hu; rw [h0]; simp [oOr]
    · have hk : ¬k = u := fun he => hu he.symm
      cases hd : alookup d u <;> simp [hu, hk, oOr]

theorem map_fst_dictInsert (d : List (String × Source)) (k : String)
    (v : Source) :
    (dictInsert d k v).map Prod.fst =
      if k ∈ d.map Prod.fst then d.map Prod.fst
      else d.map Prod.fst ++ [k] := by
  unfold dictInsert
  by_cases h : d.any (fun p => p.1 == k) = true
  · have hk : k ∈ d.map Prod.fst := by
      rw [List.any_eq_true] at h
      obtain ⟨p, hp, he⟩ := h
      exact List.mem_map.mpr ⟨p, hp, by simpa using he⟩
    rw [if_pos h, if_pos hk, List.map_map]
    apply List.map_congr_left
    intro p _
    by_cases hpk : p.1 = k <;> simp [hpk]
  · have hk : k ∉ d.map Prod.fst := by
      intro hm
      obtain ⟨p, hp, he⟩ := List.mem_map.mp hm
      exact h (List.any_eq_true.mpr ⟨p, hp, by simpa using he⟩)
    rw [if_neg h, if_neg hk]
    simp

theorem alookup_dictFold (ss : List Source) (d : List (String × Source))
    (u : String) :
    alookup (dictFold d ss) u = oOr (lastWith ss u) (alookup d u) := by
  induction ss generalizing d with
  | nil => rfl
  | cons s rest ih =>
    show alookup (dictFold (dictInsert d s.url s) rest) u = _
    rw [ih, alookup_dictInsert]
    unfold lastWith
    by_cases hs : s.url = u
    · rw [List.filter_cons_of_pos (by simpa using hs), getLast?_eq_oOr,
        oOr_assoc, if_pos hs.symm]
      rfl
    · rw [List.filter_cons_of_neg (by simpa using hs),
        if_neg (fun he => hs he.symm)]

theorem map_fst_dictFold (ss : List Source) (d : List (String × Source)) :
    (dictFold d ss).map Prod.fst =
      (ss.map Source.url).foldl
        (fun acc u => if u ∈ acc then acc else acc ++ [u])
        (d.map Prod.fst) := by
  induction ss generalizing d with
  | nil => rfl
  | cons s rest ih =>
    show (dictFold (dictInsert d s.url s) rest).map Prod.fst = _
    rw [ih, map_fst_dictInsert]
    rfl

theorem nodup_foldl_firstOccs (us : List String) (ks : List String)
    (hk : ks.Nodup) :
    (us.foldl (fun acc u => if u ∈ acc then acc else acc ++ [u]) ks).Nodup := by
  induction us generalizing ks with
  | nil => exact hk
  | cons u rest ih =>
    show (rest.foldl _ (if u ∈ ks then ks else ks ++ [u])).Nodup
    by_cases h : u ∈ ks
    · rw [if_pos h]; exact ih ks hk
    · rw [if_neg h]
      refine ih _ (List.nodup_append.mpr ⟨hk, List.nodup_singleton u, ?_⟩)
      intro x hx hxu
      rw [List.mem_singleton] at hxu
      exact h (hxu ▸ hx)

theorem mem_foldl_firstOccs (us ks : List String) (u : String)
    (h : u ∈ us.foldl (fun acc u => if u ∈ acc then acc else acc ++ [u]) ks) :
    u ∈ ks ∨ u ∈ us := by
  induction us generalizing ks with
  | nil => exact Or.inl h
  | cons a rest ih =>
    rcases ih (if a ∈ ks then ks else ks ++ [a]) h with hm | hm
    · by_cases ha : a ∈ ks
      · rw [if_pos ha] at hm; exact Or.inl hm
      · rw [if_neg ha, List.mem_append, List.mem_singleton] at hm
        rcases hm with hm | hm
        · exact Or.inl hm
        · exact Or.inr (hm ▸ List.mem_cons_self a rest)
    · exact Or.inr (List.mem_cons_of_mem a hm)

theorem map_snd_eq_filterMap_alookup (d : List (String × Source))
    (hd : (d.map Prod.fst).Nodup) :
    (d.map Prod.fst).filterMap (fun k => alookup d k) = d.map Prod.snd := by
  induction d with
  | nil => rfl
  | cons p rest ih =>
    rw [List.map_cons] at hd ⊢
    rw [List.nodup_cons] at hd
    rw [List.filterMap_cons]
    have hself : alookup (p :: rest) p.1 = some p.2 := by simp [alookup]
    rw [List.map_cons, hself]
    have : (rest.map Prod.fst).filterMap (fun k => alookup (p :: rest) k) =
        (rest.map Prod.fst).filterMap (fun k => alookup rest k) := by
      apply List.filterMap_congr
      intro k hk
      have hne : ¬p.1 = k := fun he => hd.1 (he ▸ hk)
      simp [alookup, hne]
    rw [this, ih hd.2]

theorem url_of_lastWith (ss : List Source) (u : String) (s : Source)
    (h : lastWith ss u = some s) : s.url = u := by
  have hm := List.mem_of_mem_getLast? h
  have := List.of_mem_filter hm
  simpa using this

theorem url_mem_of_mem_filterMap_lastWith (ks : List String)
    (ss : List Source) (t : Source) (h : t ∈ ks.filterMap (lastWith ss)) :
    t.url ∈ ks := by
  obtain ⟨u, hu, he⟩ := List.mem_filterMap.mp h
  exact (url_of_lastWith ss u t he) ▸ hu

theorem nodup_urls_filterMap_lastWith (ks : List String) (ss : List Source)
    (hk : ks.Nodup) :
    ((ks.filterMap (lastWith ss)).map Source.url).Nodup := by
  induction ks with
  | nil => exact List.nodup_nil
  | cons k rest ih =>
    rw [List.nodup_cons] at hk
    rw [List.filterMap_cons]
    cases h : lastWith ss k with
    | none => exact ih hk.2
    | some s =>
      rw [List.map_cons, List.nodup_cons]
      refine ⟨?_, ih hk.2⟩
      intro hmem
      obtain ⟨t, ht, he⟩ := List.mem_map.mp hmem
      have : t.url ∈ rest := url_mem_of_mem_filterMap_lastWith rest ss t ht
      rw [he, url_of_lastWith ss k s h] at this
      exact hk.1 this

theorem lastWith_sourceFilter (ss : List Source) (u : String) (hu : u ≠ "") :
    lastWith (sourceFilter ss) u = lastWith ss u := by
  unfold lastWith sourceFilter
  rw [List.filter_filter]
  congr 1
  apply List.filter_congr
  intro s _
  by_cases h : s.url = u
  · simp [h, hu]
  · simp [h]

theorem mem_firstOccs_filtered_ne_empty (ss : List Source) (u : String)
    (h : u ∈ firstOccs ((sourceFilter ss).map Source.url)) : u ≠ "" := by
  rcases mem_foldl_firstOccs _ [] u h with hm | hm
  · cases hm
  · obtain ⟨s, hs, he⟩ := List.mem_map.mp hm
    have := List.of_mem_filter hs
    intro hcon
    rw [he] at this
    rw [hcon] at this
    simp at this

theorem dedupSources_eq_filterMap (ss : List Source) :
    dedupSources ss =
      (firstOccs ((sourceFilter ss).map Source.url)).filterMap
        (lastWith (sourceFilter ss)) := by
  have hkeys : (dictFold [] (sourceFilter ss)).map Prod.fst =
      firstOccs ((sourceFilter ss).map Source.url) :=
    map_fst_dictFold (sourceFilter ss) []
  have hnodup : ((dictFold [] (sourceFilter ss)).map Prod.fst).Nodup := by
    rw [hkeys]
    exact nodup_foldl_firstOccs _ [] List.nodup_nil
  have hvals := map_snd_eq_filterMap_alookup (dictFold [] (sourceFilter ss))
    hnodup
  have : dedupSources ss = (dictFold [] (sourceFilter ss)).map Prod.snd := rfl
  rw [this, ← hvals, hkeys]
  apply List.filterMap_congr
  intro u _
  rw [alookup_dictFold]
  exact oOr_none_right _

/-- C1: deduplication of the accumulated source list returns exactly one
record per distinct non-empty url (the output's url column has no
duplicates and no empty string), its field values are those of the url's
last occurrence, and its position follows the url's first occurrence —
i.e. the dict-comprehension of line 66 equals the spec's ordered-map
description `dedupSpec`. -/
theorem dedup_matches_spec (ss : List Source) :
    dedupSources ss = dedupSpec ss ∧
    ((dedupSources ss).map Source.url).Nodup ∧
    ∀ s ∈ dedupSources ss, s.url ≠ "" := by
  have heq : dedupSources ss = dedupSpec ss := by
    rw [dedupSources_eq_filterMap]
    unfold dedupSpec
    apply List.filterMap_congr
    intro u hu
    exact lastWith_sourceFilter ss u (mem_firstOccs_filtered_ne_empty ss u hu)
  refine ⟨heq, ?_, ?_⟩
  · rw [dedupSources_eq_filterMap]
    exact nodup_urls_filterMap_lastWith _ _
      (nodup_foldl_firstOccs _ [] List.nodup_nil)
  · intro s hs
    rw [dedupSources_eq_filterMap] at hs
    exact mem_firstOccs_filtered_ne_empty ss s.url
      (url_mem_of_mem_filterMap_lastWith _ _ s hs)

/-! ### Trace characterization: which external calls a run issues -/

theorem searchCalls_append (t1 t2 : List Event) :
    searchCalls (t1 ++ t2) = searchCalls t1 ++ searchCalls t2 := by
  simp [searchCalls, List.filterMap_append]

theorem expandCallCount_append (t1 t2 : List Event) :
    expandCallCount (t1 ++ t2) = expandCallCount t1 + expandCallCount t2 := by
  simp [expandCallCount, List.filter_append]

theorem searchCalls_roundEvents (cfg : ResearchConfig) (w : World)
    (q d : String) :
    searchCalls (roundEvents cfg w q d) =
      (roundQueries w q d).map (fun sq => (sq, sources_per_round d)) := by
  unfold roundEvents
  induction roundQueries w q d with
  | nil => rfl
  | cons a rest ih =>
    simp only [List.map_cons, List.flatten_cons]
    show searchCalls ([Event.searchCall a (sources_per_round d),
      Event.sleep cfg.search_delay] ++ _) = _
    rw [searchCalls_append, ih]
    rfl

theorem expandCallCount_roundEvents (cfg : ResearchConfig) (w : World)
    (q d : String) : expandCallCount (roundEvents cfg w q d) = 0 := by
  unfold roundEvents
  induction roundQueries w q d with
  | nil => rfl
  | cons a rest ih =>
    simp only [List.map_cons, List.flatten_cons]
    show expandCallCount ([Event.searchCall a (sources_per_round d),
      Event.sleep cfg.search_delay] ++ _) = 0
    rw [expandCallCount_append, ih]
    rfl

theorem searchCalls_expandEvents (q d : String) :
    searchCalls (expandEvents q d) = [] := by
  unfold expandEvents
  split <;> rfl

theorem expandCallCount_expandEvents (q d : String) :
    expandCallCount (expandEvents q d) =
      if d = "standard" ∨ d = "deep" then 1 else 0 := by
  unfold expandEvents
  split <;> rfl

theorem searchCalls_synthEvents (w : World) (q : String)
    (uniq : List Source) : searchCalls (synthEvents w q uniq) = [] := by
  unfold synthEvents
  cases (analysisValue w).getItem "themes" with
  | none => rfl
  | some th =>
    cases (analysisValue w).getItem "insights" with
    | none => rfl
    | some ins => rfl

theorem expandCallCount_synthEvents (w : World) (q : String)
    (uniq : List Source) : expandCallCount (synthEvents w q uniq) = 0 := by
  unfold synthEvents
  cases (analysisValue w).getItem "themes" with
  | none => rfl
  | some th =>
    cases (analysisValue w).getItem "insights" with
    | none => rfl
    | some ins => rfl

theorem runTrace_eq (cfg : ResearchConfig) (w : World) (q d : String) :
    runTrace cfg w q d =
      expandEvents q d ++ roundEvents cfg w q d ++
        synthEvents w q (uniqueSources w q d) := by
  unfold runTrace conduct_research synthEvents
  cases h1 : (analysisValue w).getItem "themes" with
  | none => rfl
  | some th =>
    cases h2 : (analysisValue w).getItem "insights" with
    | none => rfl
    | some ins => rfl

theorem searchCalls_runTrace (cfg : ResearchConfig) (w : World)
    (q d : String) :
    searchCalls (runTrace cfg w q d) =
      (roundQueries w q d).map (fun sq => (sq, sources_per_round d)) := by
  rw [runTrace_eq, searchCalls_append, searchCalls_append,
    searchCalls_expandEvents, searchCalls_roundEvents,
    searchCalls_synthEvents]
  simp

theorem expandCallCount_runTrace (cfg : ResearchConfig) (w : World)
    (q d : String) :
    expandCallCount (runTrace cfg w q d) =
      if d = "standard" ∨ d = "deep" then 1 else 0 := by
  rw [runTrace_eq, expandCallCount_append, expandCallCount_append,
    expandCallCount_expandEvents, expandCallCount_roundEvents,
    expandCallCount_synthEvents]
  simp

theorem expandQueries_other (w : World) (d : String)
    (h2 : d ≠ "standard") (h3 : d ≠ "deep") : expandQueries w d = [] := by
  unfold expandQueries
  rw [if_neg]
  rintro (h | h) <;> [exact h2 h; exact h3 h]

theorem alookup_other (d : String) (h1 : d ≠ "basic") (h2 : d ≠ "standard")
    (h3 : d ≠ "deep") (a b c : Nat) :
    alookup [("basic", a), ("standard", b), ("deep", c)] d = none := by
  simp [alookup, Ne.symm h1, Ne.symm h2, Ne.symm h3]

/-- C4: the depth → (round_count, sources_per_round) table is exactly
basic ↦ (1, 3), standard ↦ (2, 5), deep ↦ (3, 7), anything else ↦ (2, 5);
at most 2 search rounds execute for standard, each invoked with limit 5,
and at most 3 rounds for deep, each with limit 7. -/
theorem depth_budget_policy :
    search_rounds "basic" = 1 ∧ sources_per_round "basic" = 3 ∧
    search_rounds "standard" = 2 ∧ sources_per_round "standard" = 5 ∧
    search_rounds "deep" = 3 ∧ sources_per_round "deep" = 7 ∧
    (∀ d, d ≠ "basic" → d ≠ "standard" → d ≠ "deep" →
      search_rounds d = 2 ∧ sources_per_round d = 5) ∧
    (∀ cfg w q, (searchCalls (runTrace cfg w q "standard")).length ≤ 2 ∧
      ∀ p ∈ searchCalls (runTrace cfg w q "standard"), p.2 = 5) ∧
    (∀ cfg w q, (searchCalls (runTrace cfg w q "deep")).length ≤ 3 ∧
      ∀ p ∈ searchCalls (runTrace cfg w q "deep"), p.2 = 7) := by
  refine ⟨rfl, rfl, rfl, rfl, rfl, rfl, ?_, ?_, ?_⟩
  · intro d h1 h2 h3
    unfold search_rounds sources_per_round
    rw [alookup_other d h1 h2 h3, alookup_other d h1 h2 h3]
    exact ⟨rfl, rfl⟩
  · intro cfg w q
    rw [searchCalls_runTrace]
    constructor
    · rw [List.length_map]
      unfold roundQueries
      calc ((q :: expandQueries w "standard").take
              (search_rounds "standard")).length
          ≤ search_rounds "standard" := by
            rw [List.length_take]; exact min_le_left _ _
        _ = 2 := rfl
    · intro p hp
      obtain ⟨sq, _, he⟩ := List.mem_map.mp hp
      rw [← he]
      rfl
  · intro cfg w q
    rw [searchCalls_runTrace]
    constructor
    · rw [List.length_map]
      unfold roundQueries
      calc ((q :: expandQueries w "deep").take (search_rounds "deep")).length
          ≤ search_rounds "deep" := by
            rw [List.length_take]; exact min_le_left _ _
        _ = 3 := rfl
    · intro p hp
      obtain ⟨sq, _, he⟩ := List.mem_map.mp hp
      rw [← he]
      rfl

/-- Witness for C4's conditional conjunct at the concrete depth
`"detailed"`, outside the table. -/
theorem depth_budget_policy_witness :
    search_rounds "detailed" = 2 ∧ sources_per_round "detailed" = 5 :=
  depth_budget_policy.2.2.2.2.2.2.1 "detailed"
    (by decide) (by decide) (by decide)

/-- C5: for depth `basic` no expansion completion call is issued (and the
expansion result is empty), and exactly one search round executes, with
limit 3, on the original query. -/
theorem basic_depth_behavior (cfg : ResearchConfig) (w : World) (q : String) :
    expandCallCount (runTrace cfg w q "basic") = 0 ∧
    expandQueries w "basic" = [] ∧
    searchCalls (runTrace cfg w q "basic") = [(q, 3)] := by
  refine ⟨?_, rfl, ?_⟩
  · rw [expandCallCount_runTrace]
    rfl
  · rw [searchCalls_runTrace]
    rfl

/-- C8: for any depth outside \x7bbasic, standard, deep\x7d no expansion
call is issued, so the query list is just the original query and exactly
one search round executes with limit 5, although the fallback budget
`search_rounds = 2` would permit two rounds. -/
theorem other_depth_single_round (cfg : ResearchConfig) (w : World)
    (q d : String) (h1 : d ≠ "basic") (h2 : d ≠ "standard")
    (h3 : d ≠ "deep") :
    expandCallCount (runTrace cfg w q d) = 0 ∧
    expandQueries w d = [] ∧
    searchCalls (runTrace cfg w q d) = [(q, 5)] ∧
    search_rounds d = 2 := by
  have hr : search_rounds d = 2 := by
    unfold search_rounds
    rw [alookup_other d h1 h2 h3]
    rfl
  have he : expandQueries w d = [] := expandQueries_other w d h2 h3
  have hspr : sources_per_round d = 5 := by
    unfold sources_per_round
    rw [alookup_other d h1 h2 h3]
    rfl
  refine ⟨?_, he, ?_, hr⟩
  · rw [expandCallCount_runTrace, if_neg]
    rintro (h | h) <;> [exact h2 h; exact h3 h]
  · rw [searchCalls_runTrace]
    unfold roundQueries
    rw [he, hr, hspr]
    rfl

/-- Witness for C8 at the concrete depth `"detailed"`. -/
theorem other_depth_single_round_witness :
    expandCallCount (runTrace ⟨"k", 10, 1⟩
      ⟨.error (), fun _ => .error (), .error (), .error ()⟩
      "q" "detailed") = 0 ∧
    expandQueries ⟨.error (), fun _ => .error (), .error (), .error ()⟩
      "detailed" = [] ∧
    searchCalls (runTrace ⟨"k", 10, 1⟩
      ⟨.error (), fun _ => .error (), .error (), .error ()⟩
      "q" "detailed") = [("q", 5)] ∧
    search_rounds "detailed" = 2 :=
  other_depth_single_round ⟨"k", 10, 1⟩
    ⟨.error (), fun _ => .error (), .error (), .error ()⟩ "q" "detailed"
    (by decide) (by decide) (by decide)

/-! ### Synthesis stage: normal return, raising, and fallbacks -/

theorem conduct_research_snd_ok (cfg : ResearchConfig) (w : World)
    (q d : String) (th ins : Json)
    (h1 : (analysisValue w).getItem "themes" = some th)
    (h2 : (analysisValue w).getItem "insights" = some ins) :
    (conduct_research cfg w q d).2 =
      .ok { query := q
            sources_found := (uniqueSources w q d).length
            report := reportTextOf w q (uniqueSources w q d)
            sources := uniqueSources w q d } := by
  unfold conduct_research
  rw [h1, h2]

/-- C2 counterexample: with the Stage-A completion returning text that
parses as a JSON string (a possible service behaviour), and every other
call failing, `conduct_research` raises an uncaught error instead of
returning a ResearchResult. -/
theorem conduct_research_raises_counterexample :
    (conduct_research ⟨"key", 10, 1⟩ strAnalysisWorld "solar" "standard").2 =
      .error () := rfl

/-- C2 (amended): `conduct_research` returns a ResearchResult for every
behaviour of the two services in which the Stage-A completion, whenever
it succeeds and its body parses as JSON, yields an object containing
both keys `themes` and `insights`; a successful Stage-A response whose
JSON value lacks either key (or is not an object) instead causes an
uncaught error at the line-77 subscripts. -/
theorem conduct_research_total (cfg : ResearchConfig) (w : World)
    (q d : String)
    (h : ∀ j, w.analysisResp = .ok j →
      (j.getItem "themes").isSome ∧ (j.getItem "insights").isSome) :
    ∃ r, (conduct_research cfg w q d).2 = .ok r := by
  have hts : ((analysisValue w).getItem "themes").isSome ∧
      ((analysisValue w).getItem "insights").isSome := by
    unfold analysisValue
    cases hw : w.analysisResp with
    | ok j => exact h j hw
    | error e => exact ⟨rfl, rfl⟩
  obtain ⟨th, hth⟩ := Option.isSome_iff_exists.mp hts.1
  obtain ⟨ins, hins⟩ := Option.isSome_iff_exists.mp hts.2
  exact ⟨_, conduct_research_snd_ok cfg w q d th ins hth hins⟩

/-- Witness for C2's amended theorem at the all-failing world. -/
theorem conduct_research_total_witness :
    (∀ j, errWorld.analysisResp = .ok j →
      (j.getItem "themes").isSome ∧ (j.getItem "insights").isSome) ∧
    ∃ r, (conduct_research ⟨"key", 10, 1⟩ errWorld "solar" "basic").2 =
      .ok r :=
  ⟨fun _ h => Except.noConfusion h,
   conduct_research_total ⟨"key", 10, 1⟩ errWorld "solar" "basic"
     (fun _ h => Except.noConfusion h)⟩

/-- C3 counterexample: a Stage-A completion text parsing as the empty
JSON array satisfies the claim's premise (it fails to parse as a JSON
object with keys themes and insights), yet the analysis value is not the
default pair — the run raises before any Stage-B call is made. -/
theorem stageA_default_counterexample :
    (Json.arr []).getItem "themes" = none ∧
    analysisValue arrAnalysisWorld ≠ defaultAnalysis ∧
    (conduct_research ⟨"key", 10, 1⟩ arrAnalysisWorld "solar" "standard").2 =
      .error () ∧
    reportCallCount
      (runTrace ⟨"key", 10, 1⟩ arrAnalysisWorld "solar" "standard") = 0 := by
  refine ⟨rfl, fun h => Json.noConfusion h, rfl, rfl⟩

/-- C3 (amended): when the Stage-A completion call fails or its body is
not valid JSON, the analysis used for Stage B is exactly
themes = ["Information synthesis"], insights = ["Comprehensive analysis"],
and the Stage-B prompt embeds that default pair.  (A response that parses
as JSON but is not an object with both keys raises instead.) -/
theorem stageA_fallback (cfg : ResearchConfig) (w : World) (q d : String)
    (h : w.analysisResp = .error ()) :
    analysisValue w = defaultAnalysis ∧
    (analysisValue w).getItem "themes" =
      some (Json.arr [Json.str "Information synthesis"]) ∧
    (analysisValue w).getItem "insights" =
      some (Json.arr [Json.str "Comprehensive analysis"]) ∧
    (conduct_research cfg w q d).1 =
      expandEvents q d ++ roundEvents cfg w q d ++
        [Event.analysisCall (mkAnalysisPrompt q (uniqueSources w q d)),
         Event.reportCall (mkReportPrompt q (uniqueSources w q d)
           (Json.arr [Json.str "Information synthesis"])
           (Json.arr [Json.str "Comprehensive analysis"]))] := by
  have hd : analysisValue w = defaultAnalysis := by
    unfold analysisValue
    rw [h]
  refine ⟨hd, ?_, ?_, ?_⟩
  · rw [hd]; rfl
  · rw [hd]; rfl
  · show runTrace cfg w q d = _
    rw [runTrace_eq]
    unfold synthEvents
    rw [hd]
    rfl

/-- Witness for C3's amended theorem at the all-failing world. -/
theorem stageA_fallback_witness :
    errWorld.analysisResp = .error () ∧
    analysisValue errWorld = defaultAnalysis ∧
    (conduct_research ⟨"key", 10, 1⟩ errWorld "solar" "basic").1 =
      expandEvents "solar" "basic" ++
        roundEvents ⟨"key", 10, 1⟩ errWorld "solar" "basic" ++
        [Event.analysisCall (mkAnalysisPrompt "solar"
           (uniqueSources errWorld "solar" "basic")),
         Event.reportCall (mkReportPrompt "solar"
           (uniqueSources errWorld "solar" "basic")
           (Json.arr [Json.str "Information synthesis"])
           (Json.arr [Json.str "Comprehensive analysis"]))] :=
  ⟨rfl, (stageA_fallback ⟨"key", 10, 1⟩ errWorld "solar" "basic" rfl).1,
   (stageA_fallback ⟨"key", 10, 1⟩ errWorld "solar" "basic" rfl).2.2.2⟩

/-- C6: if the Stage-B completion call fails (in a run that reaches
Stage B, i.e. the line-77 subscripts succeeded), `conduct_research`
returns normally and the report is exactly the synthetic fallback text,
which embeds the literal query, the count of deduplicated sources that
were analyzed, and an Executive Summary section reporting an API error. -/
theorem stageB_fallback_report (cfg : ResearchConfig) (w : World)
    (q d : String) (th ins : Json)
    (h1 : (analysisValue w).getItem "themes" = some th)
    (h2 : (analysisValue w).getItem "insights" = some ins)
    (hrep : w.reportResp = .error ()) :
    ∃ r, (conduct_research cfg w q d).2 = .ok r ∧
      r.report = fallbackReport q r.sources_found ∧
      r.sources_found = (uniqueSources w q d).length ∧
      (∃ a b, r.report = a ++ q ++ b) ∧
      (∃ a b, r.report = a ++ toString r.sources_found ++ b) := by
  have hrt : reportTextOf w q (uniqueSources w q d) =
      fallbackReport q (uniqueSources w q d).length := by
    unfold reportTextOf
    rw [hrep]
  refine ⟨_, conduct_research_snd_ok cfg w q d th ins h1 h2, hrt, rfl,
    ?_, ?_⟩
  · refine ⟨"# Research Report: ",
      "\n\n## Executive Summary\n\nNo report generated due to API error. A comprehensive analysis was attempted on "
        ++ toString (uniqueSources w q d).length ++ " sources.", ?_⟩
    show reportTextOf w q (uniqueSources w q d) = _
    rw [hrt]
    unfold fallbackReport
    simp [String.append_assoc]
  · refine ⟨"# Research Report: " ++ q ++
      "\n\n## Executive Summary\n\nNo report generated due to API error. A comprehensive analysis was attempted on ",
      " sources.", ?_⟩
    show reportTextOf w q (uniqueSources w q d) = _
    rw [hrt]
    unfold fallbackReport
    simp [String.append_assoc]

/-- Witness for C6 at the all-failing world (the default analysis has
both keys, so Stage B is reached; the Stage-B call fails). -/
theorem stageB_fallback_report_witness :
    errWorld.reportResp = .error () ∧
    ∃ r, (conduct_research ⟨"key", 10, 1⟩ errWorld "solar" "basic").2 =
        .ok r ∧
      r.report = fallbackReport "solar" r.sources_found ∧
      r.sources_found = (uniqueSources errWorld "solar" "basic").length ∧
      (∃ a b, r.report = a ++ "solar" ++ b) ∧
      (∃ a b, r.report = a ++ toString r.sources_found ++ b) :=
  ⟨rfl, stageB_fallback_report ⟨"key", 10, 1⟩ errWorld "solar" "basic"
    (Json.arr [Json.str "Information synthesis"])
    (Json.arr [Json.str "Comprehensive analysis"]) rfl rfl rfl⟩

/-! ### Stage-A prompt truncation policy -/

theorem pySlice_length (s : String) (n : Nat) :
    (pySlice s n).length = min n s.length := by
  cases s with
  | mk data => simp [pySlice, String.length]

theorem pySlice_of_le (s : String) (n : Nat) (h : s.length ≤ n) :
    pySlice s n = s := by
  cases s with
  | mk data =>
    unfold pySlice
    rw [List.take_of_length_le (by simpa [String.length] using h)]

theorem bigSnippet_length : bigSnippet.length = 3000 := by
  show (List.replicate 3000 'a').length = 3000
  exact List.length_replicate 3000 'a'

/-- C7: the Stage-A prompt's content section equals the snippets of the
deduplicated sources joined with single-space separators and then
truncated, after joining, to at most 4000 characters; it never exceeds
4000 characters, is the unmodified join when that is short enough, and
differs from the join of per-source truncations (exhibited on two
3000-character snippets: post-join truncation gives 4000 characters,
per-source truncation would give 6001). -/
theorem stageA_prompt_policy (q : String) (ss : List Source) :
    mkAnalysisPrompt q ss =
      "Analyze the following research content on '" ++ q ++
        "'. Provide 3-4 key themes and 3-4 main insights. Format as JSON with keys: themes, insights.\n\nContent: " ++
        pySlice (pyJoin " " (ss.map Source.snippet)) 4000 ∧
    (pySlice (pyJoin " " (ss.map Source.snippet)) 4000).length ≤ 4000 ∧
    ((pyJoin " " (ss.map Source.snippet)).length ≤ 4000 →
      pySlice (pyJoin " " (ss.map Source.snippet)) 4000 =
        pyJoin " " (ss.map Source.snippet)) ∧
    (pySlice (pyJoin " " (([⟨"", "u1", bigSnippet⟩, ⟨"", "u2", bigSnippet⟩] :
        List Source).map Source.snippet)) 4000).length = 4000 ∧
    (pyJoin " " (([⟨"", "u1", bigSnippet⟩, ⟨"", "u2", bigSnippet⟩] :
        List Source).map (fun s => pySlice s.snippet 4000))).length = 6001 := by
  refine ⟨rfl, ?_, ?_, ?_, ?_⟩
  · rw [pySlice_length]
    exact min_le_left _ _
  · intro h
    exact pySlice_of_le _ _ h
  · rw [pySlice_length]
    have hj : (pyJoin " " (([⟨"", "u1", bigSnippet⟩, ⟨"", "u2", bigSnippet⟩] :
        List Source).map Source.snippet)).length = 6001 := by
      show (bigSnippet ++ " " ++ bigSnippet).length = 6001
      rw [String.length_append, String.length_append, bigSnippet_length]
      rfl
    rw [hj]
    exact min_eq_left (by omega)
  · show (pySlice bigSnippet 4000 ++ " " ++ pySlice bigSnippet 4000).length
      = 6001
    rw [pySlice_of_le bigSnippet 4000 (by rw [bigSnippet_length]; omega),
      String.length_append, String.length_append, bigSnippet_length]
    rfl

/-- Witness for C7's no-truncation-when-short conjunct on a short
snippet list. -/
theorem stageA_prompt_policy_witness :
    (pyJoin " " (([⟨"t", "u", "snip"⟩] : List Source).map
      Source.snippet)).length ≤ 4000 ∧
    pySlice (pyJoin " " (([⟨"t", "u", "snip"⟩] : List Source).map
        Source.snippet)) 4000 =
      pyJoin " " (([⟨"t", "u", "snip"⟩] : List Source).map Source.snippet) :=
  ⟨by decide, (stageA_prompt_policy "q" [⟨"t", "u", "snip"⟩]).2.2.1
    (by decide)⟩

/-! ### Configuration: only the delay is observable, max_sources never is -/

/-- C9: two runs whose configurations agree on the credential and the
delay — i.e. differ at most in `max_sources` — produce identical traces
and identical results for every query, depth and service behaviour:
`max_sources` is never read. -/
theorem max_sources_unused (c1 c2 : ResearchConfig) (w : World)
    (q d : String) (hk : c1.gemini_api_key = c2.gemini_api_key)
    (hd : c1.search_delay = c2.search_delay) :
    conduct_research c1 w q d = conduct_research c2 w q d := by
  obtain ⟨k1, m1, s1⟩ := c1
  obtain ⟨k2, m2, s2⟩ := c2
  dsimp only at hk hd
  subst hk
  subst hd
  rfl

/-- Witness for C9: configurations differing only in `max_sources`. -/
theorem max_sources_unused_witness :
    (⟨"key", 10, 1⟩ : ResearchConfig).gemini_api_key =
      (⟨"key", 15, 1⟩ : ResearchConfig).gemini_api_key ∧
    (⟨"key", 10, 1⟩ : ResearchConfig).search_delay =
      (⟨"key", 15, 1⟩ : ResearchConfig).search_delay ∧
    conduct_research ⟨"key", 10, 1⟩ errWorld "solar" "standard" =
      conduct_research ⟨"key", 15, 1⟩ errWorld "solar" "standard" :=
  ⟨rfl, rfl, max_sources_unused ⟨"key", 10, 1⟩ ⟨"key", 15, 1⟩ errWorld
    "solar" "standard" rfl rfl⟩

/-! ### Shape of the Source records built by search_web -/

/-- C10: every Source returned by `search_web` has `title = snippet`
(both copied from the topic's `Text` field) and `url` equal to the
topic's `FirstURL`, defaulting to the empty string when absent. -/
theorem search_web_shape (resp : Except Unit SearchData) (n : Nat)
    (s : Source) (hs : s ∈ search_web resp n) :
    s.title = s.snippet ∧
    ∃ data topics topic, resp = .ok data ∧
      data.relatedTopics = some topics ∧ topic ∈ topics ∧
      topic.isDict = true ∧ topic.text = some s.title ∧
      s.url = topic.firstURL.getD "" := by
  cases resp with
  | error e => simp [search_web] at hs
  | ok data =>
    obtain ⟨rt⟩ := data
    cases rt with
    | none => simp [search_web] at hs
    | some topics =>
      simp only [search_web, List.mem_filterMap] at hs
      obtain ⟨topic, htm, hf⟩ := hs
      by_cases hc : (topic.isDict && topic.text.isSome) = true
      · rw [if_pos hc] at hf
        rw [Bool.and_eq_true] at hc
        obtain ⟨t, ht⟩ := Option.isSome_iff_exists.mp hc.2
        injection hf with hf
        subst hf
        refine ⟨rfl, ⟨some topics⟩, topics, topic, rfl, rfl,
          List.mem_of_mem_take htm, hc.1, ?_, rfl⟩
        rw [ht]
        rfl
      · rw [if_neg hc] at hf
        exact Option.noConfusion hf

/-- Witness for C10 on a one-topic provider response. -/
theorem search_web_shape_witness :
    (⟨"hello", "http://x", "hello"⟩ : Source) ∈
      search_web (Except.ok ⟨some [⟨true, some "hello", some "http://x"⟩]⟩)
        5 ∧
    ((⟨"hello", "http://x", "hello"⟩ : Source).title =
        (⟨"hello", "http://x", "hello"⟩ : Source).snippet ∧
      ∃ data topics topic,
        (Except.ok ⟨some [⟨true, some "hello", some "http://x"⟩]⟩ :
          Except Unit SearchData) = .ok data ∧
        data.relatedTopics = some topics ∧ topic ∈ topics ∧
        topic.isDict = true ∧
        topic.text = some (⟨"hello", "http://x", "hello"⟩ : Source).title ∧
        (⟨"hello", "http://x", "hello"⟩ : Source).url =
          topic.firstURL.getD "") :=
  ⟨by decide,
   search_web_shape (Except.ok ⟨some [⟨true, some "hello", some "http://x"⟩]⟩)
     5 ⟨"hello", "http://x", "hello"⟩ (by decide)⟩

end ResearchAgent
